import Mathlib

/-!
Verification of the payment-gateway report monitor
(`base_class.py`, `telegram_bot.py`, `constans.py`, `functions.py`).

The Python code is shallowly embedded: the browser/UI is abstracted as an
environment that supplies the texts the code would read from the page
(paginator summaries, table cells), while all the parsing, arithmetic and
control flow of the source is translated line by line.  Python exceptions
are made explicit (`Except`, or an `exn` outcome constructor); Python's
dynamic typing of the `time_elapsed_text` variable in
`validate_state_last_time` is modelled by the sum type `PyVal`.
-/

/-! ## String utilities (modelling Python `str` operations and `int()`) -/

/-- Python `\s` on ASCII: the whitespace characters recognised by
`str.strip()` and the `\s` regex class. -/
def pySpaceChar (c : Char) : Bool :=
  c = ' ' || c = '\t' || c = '\n' || c = '\r' || c = '\x0b' || c = '\x0c'

def trimCharList (cs : List Char) : List Char :=
  ((cs.dropWhile pySpaceChar).reverse.dropWhile pySpaceChar).reverse

/-- Python `str.strip()`. -/
def trimStr (s : String) : String :=
  ⟨trimCharList s.data⟩

/-- Python `s.replace(c, "")` for a single-character pattern `c`. -/
def removeChar (c : Char) (s : String) : String :=
  ⟨s.data.filter (fun x => x != c)⟩

/-- Whether `pat` is a prefix of `s` (used to model regex literal matching). -/
def headMatches : List Char → List Char → Bool
  | [], _ => true
  | _ :: _, [] => false
  | a :: as, b :: bs => a == b && headMatches as bs

/-- Python `pat in s` (substring containment). -/
def containsSub (pat : List Char) : List Char → Bool
  | [] => headMatches pat []
  | c :: rest => headMatches pat (c :: rest) || containsSub pat rest

def digitsToNat (ds : List Char) : Nat :=
  ds.foldl (fun acc c => 10 * acc + (c.toNat - '0'.toNat)) 0

/-- Digit-run part of Python `int()`: a non-empty all-digit run with an
already-consumed sign; anything else raises `ValueError` (here: `none`). -/
def pyIntCore (neg : Bool) (ds : List Char) : Option Int :=
  if ds.isEmpty || !(ds.all Char.isDigit) then none
  else some (if neg then -(digitsToNat ds : Int) else (digitsToNat ds : Int))

/-- Python `int(s)`: strip whitespace, optional sign, then a non-empty run of
(ASCII) digits. -/
def pyInt (s : String) : Option Int :=
  if (trimCharList s.data).headD ' ' = '+' then pyIntCore false (trimCharList s.data).tail
  else if (trimCharList s.data).headD ' ' = '-' then pyIntCore true (trimCharList s.data).tail
  else pyIntCore false (trimCharList s.data)

/-- Python `int(s)` with the exception made explicit. -/
def pyIntE (s : String) : Except String Int :=
  match pyInt s with
  | some n => Except.ok n
  | none => Except.error ("ValueError: invalid literal for int: " ++ s)

/-- Python `s or "0"`: an empty string is falsy and defaults to `"0"`. -/
def orZero (s : String) : String :=
  if s = "" then "0" else s

/-! ## Paginator parsing

`re.search(r'\((\d+)\s+registros\)', paginator_text)` from
`exe_consult_and_ext_data` and `validate_state_last_time`. -/

/-- Attempt to match `\((\d+)\s+registros\)` at the head of the character
list; the digit and whitespace runs are maximal (the following character
classes are disjoint, so the greedy regex is deterministic). -/
def matchRegistrosAt : List Char → Option Nat
  | '(' :: rest =>
    let ds := rest.takeWhile Char.isDigit
    if ds.isEmpty then none
    else
      let r2 := rest.drop ds.length
      let ws := r2.takeWhile pySpaceChar
      if ws.isEmpty then none
      else
        let r3 := r2.drop ws.length
        if headMatches "registros)".data r3 then some (digitsToNat ds) else none
  | _ => none

def findRegistrosAux : List Char → Option Nat
  | [] => none
  | c :: rest =>
    match matchRegistrosAt (c :: rest) with
    | some n => some n
    | none => findRegistrosAux rest

/-- `re.search` over the whole paginator text: first position where the
pattern matches, else no match (the callers then default the count to 0). -/
def findRegistros (s : String) : Option Nat :=
  findRegistrosAux s.data

/-! ## Constants from `constans.py` -/

def MAX_VALUES_PER_PAGE : Nat := 22

/-- `IGNORE_COMERCIOS_VALIDATIONS` keyed by rule name (`constans.py`). -/
def IGNORE_COMERCIOS_VALIDATIONS (rule : String) : List String :=
  if rule = "failures_vs_approvals" then ["CAFAM"] else []

/-- `SELECTORS_REPORT_CONSULT_OPTIONS` from `constans.py`: the only report
name defined is `"Monitoreo Por Estado"`; the value kept here is the
report's URL fragment (the selector strings themselves are UI details the
core logic never branches on). -/
def SELECTORS_REPORT_CONSULT_OPTIONS (report_name : String) : Option String :=
  if report_name = "Monitoreo Por Estado" then some "consultaConsolidada01.xhtml" else none

/-! ## Data model: one report row (`ROWS_TABLE_REPORT_CONSULT` order) -/

structure ReportRow where
  comercio : String
  fecha : String
  aprobadas : String
  rechazada : String
  fallidas : String
  pendienteEF : String
  noFinalesEF : String
  noFinales : String
  noReportaadas : String
  ultimaReportada : String
deriving DecidableEq

/-- Build a `ReportRow` from the raw cell texts of one `<tr>`: column index
maps to the fixed column name, each cell text is stripped
(`cell.inner_text().strip()`). -/
def rowOfCells (cells : List String) : ReportRow :=
  { comercio := trimStr (cells.getD 0 "")
    fecha := trimStr (cells.getD 1 "")
    aprobadas := trimStr (cells.getD 2 "")
    rechazada := trimStr (cells.getD 3 "")
    fallidas := trimStr (cells.getD 4 "")
    pendienteEF := trimStr (cells.getD 5 "")
    noFinalesEF := trimStr (cells.getD 6 "")
    noFinales := trimStr (cells.getD 7 "")
    noReportaadas := trimStr (cells.getD 8 "")
    ultimaReportada := trimStr (cells.getD 9 "") }

/-! ## `exe_consult_and_ext_data`

The browser is abstracted by a `ReportEnv`: the paginator summary text and,
for each 0-based page index, the cell texts of the rows rendered on that
page (the pager-navigation clicks always land on the requested page). -/

structure ReportEnv where
  paginatorText : String
  pageRows : Nat → List (List String)

def exe_consult_and_ext_data (env : ReportEnv) : List ReportRow × List String :=
  let num_rows := (findRegistros env.paginatorText).getD 0
  let num_pages := (num_rows + MAX_VALUES_PER_PAGE - 1) / MAX_VALUES_PER_PAGE
  let pages := List.range num_pages
  (pages.flatMap (fun p => (env.pageRows p).map rowOfCells),
   pages.map (fun p => "table_page_" ++ toString (p + 1)))

def mkReportEnv (txt : String) : ReportEnv :=
  ⟨txt, fun _ => []⟩

/-! ## `datetime.strptime(s, "%I:%M:%S %p")`

Faithful to CPython's `_strptime`: `%I` matches `1[0-2]|0[1-9]|[1-9]`,
`%M` matches `[0-5]\d|\d`, `%S` matches `6[0-1]|[0-5]\d|\d`, a space in the
format matches one or more whitespace characters, `%p` matches `AM`/`PM`
case-insensitively, and the whole input must be consumed (otherwise
"unconverted data remains", a `ValueError`).  The adjacent literal `:` makes
the greedy alternations deterministic, so no global backtracking is needed. -/

structure PTime where
  hour : Nat
  minute : Nat
  second : Nat
deriving DecidableEq

def timeSecOfDay (t : PTime) : Int :=
  ((3600 * t.hour + 60 * t.minute + t.second : Nat) : Int)

def digitVal (c : Char) : Nat := c.toNat - '0'.toNat

def pHourI : List Char → Option (Nat × List Char)
  | '1' :: c :: rest =>
    if c = '0' || c = '1' || c = '2' then some (10 + digitVal c, rest)
    else some (1, c :: rest)
  | '0' :: c :: rest =>
    if c.isDigit && c ≠ '0' then some (digitVal c, rest) else none
  | c :: rest =>
    if c.isDigit && c ≠ '0' then some (digitVal c, rest) else none
  | [] => none

def pMin : List Char → Option (Nat × List Char)
  | c :: d :: rest =>
    if c.isDigit && c ≤ '5' && d.isDigit then some (10 * digitVal c + digitVal d, rest)
    else if c.isDigit then some (digitVal c, d :: rest)
    else none
  | [c] => if c.isDigit then some (digitVal c, []) else none
  | [] => none

def pSec : List Char → Option (Nat × List Char)
  | c :: d :: rest =>
    if c = '6' && (d = '0' || d = '1') then some (60 + digitVal d, rest)
    else if c.isDigit && c ≤ '5' && d.isDigit then some (10 * digitVal c + digitVal d, rest)
    else if c.isDigit then some (digitVal c, d :: rest)
    else none
  | [c] => if c.isDigit then some (digitVal c, []) else none
  | [] => none

def pWs1 : List Char → Option (List Char)
  | c :: rest => if pySpaceChar c then some (rest.dropWhile pySpaceChar) else none
  | [] => none

/-- `%p`: returns `true` for PM. -/
def pAmPm : List Char → Option (Bool × List Char)
  | a :: m :: rest =>
    if (a = 'A' || a = 'a') && (m = 'M' || m = 'm') then some (false, rest)
    else if (a = 'P' || a = 'p') && (m = 'M' || m = 'm') then some (true, rest)
    else none
  | _ => none

def expectChar (c : Char) : List Char → Option (List Char)
  | x :: rest => if x = c then some rest else none
  | [] => none

/-- Hour conversion for `%I` with `%p`: 12 AM is hour 0, 12 PM is hour 12. -/
def hour24 (pm : Bool) (h : Nat) : Nat :=
  if pm then (if h = 12 then 12 else h + 12) else (if h = 12 then 0 else h)

def strptimeIMSp (s : String) : Option PTime := do
  let (h, r1) ← pHourI s.data
  let r2 ← expectChar ':' r1
  let (m, r3) ← pMin r2
  let r4 ← expectChar ':' r3
  let (sec, r5) ← pSec r4
  let r6 ← pWs1 r5
  let (pm, r7) ← pAmPm r6
  if r7 = [] then some ⟨hour24 pm h, m, sec⟩ else none

/-! ## `validate_state_last_time` (the aging drill-down)

The UI is abstracted by a `DrillEnv`: for each state label of the
"Registros Por Fecha" filter it yields the paginator text of the query, the
rows of the table as first rendered, and the rows after the jump to the last
page (taken when the record count exceeds 7).  `nowSec` is the time of day
of `datetime.now()` in seconds; since `ultima_hora` is re-dated to today,
the subtraction in the source is exactly a difference of times of day.

The Python local variable `time_elapsed_text` holds either a string or (after
the fallback scan succeeds) a `datetime`; `PyVal` reflects that. -/

inductive PyVal
  | str (s : String)
  | time (t : PTime)
deriving DecidableEq

structure DrillPage where
  paginatorText : String
  rows : List (List String)
  lastPageRows : List (List String)
deriving DecidableEq

structure DrillEnv where
  pages : String → DrillPage
  nowSec : Int

/-- Reading cell `i` of a row; the report table renders a fixed 11-column
layout, absent cells read as empty text. -/
def getCell (row : List String) (i : Nat) : String :=
  row.getD i ""

/-- The `estados_equivalentes` dictionary. -/
def estadosEquivalentes : String → Option String
  | "# No Finales" => some "NO FINALES"
  | "# No Finales EF" => some "NO FINALES EFE"
  | "# No Reportaadas" => some "NO REPORTADO"
  | _ => none

/-- The inner `for i in range(11)` fallback scan: skip blank cells and cells
without `AM`/`PM`; on a cell that parses, keep scanning with the parsed
`datetime` (the source has no `break` after a successful parse); on a cell
that contains `AM`/`PM` but fails to parse, `break` with the current value. -/
def fallbackLoop (row : List String) : List Nat → PyVal → PyVal
  | [], acc => acc
  | i :: rest, acc =>
    let cell_text := trimStr (getCell row i)
    if cell_text = "" then fallbackLoop row rest acc
    else if containsSub "PM".data cell_text.data || containsSub "AM".data cell_text.data then
      match strptimeIMSp cell_text with
      | some t => fallbackLoop row rest (PyVal.time t)
      | none => acc
    else fallbackLoop row rest acc

def fallbackScan (row : List String) : PyVal :=
  fallbackLoop row (List.range 11) (PyVal.str "")

inductive VOutcome
  | ret (b : Bool)
  | exn (msg : String)
deriving DecidableEq

/-- One iteration of the `for state in states_to_check` loop body, after the
state label has been resolved: `none` means the loop continues with the next
state, `some` means the function returns (`ret`) or an uncaught exception
propagates (`exn`). -/
def checkStateStep (env : DrillEnv) (stateEquiv : String) : Option VOutcome :=
  let pg := env.pages stateEquiv
  let num_rows := (findRegistros pg.paginatorText).getD 0
  if num_rows = 0 then none
  else
    let tableRows := if num_rows > 7 then pg.lastPageRows else pg.rows
    if tableRows.length = 0 then none
    else
      let last_row := tableRows.getD (tableRows.length - 1) []
      let tet0 := removeChar '.' (trimStr (getCell last_row 10))
      let tet := if tet0 = "" then fallbackScan last_row else PyVal.str tet0
      match tet with
      | PyVal.time _ => some (VOutcome.exn "TypeError: strptime() argument 1 must be str")
      | PyVal.str s =>
        if s = "" then some (VOutcome.ret true)
        else
          match strptimeIMSp s with
          | none => some (VOutcome.exn ("ValueError: time data " ++ s ++ " does not match format"))
          | some t =>
            if env.nowSec - timeSecOfDay t > 3600 then some (VOutcome.ret true) else none

/-- The `for state in states_to_check` loop; also counts how many loop
iterations were entered before the function returned. -/
def vsltLoop (env : DrillEnv) : List String → VOutcome × Nat
  | [] => (VOutcome.ret false, 0)
  | s :: rest =>
    match estadosEquivalentes s with
    | none =>
      let p := vsltLoop env rest
      (p.1, p.2 + 1)
    | some st =>
      match checkStateStep env st with
      | some o => (o, 1)
      | none =>
        let p := vsltLoop env rest
        (p.1, p.2 + 1)

structure VsltResult where
  outcome : VOutcome
  statesProcessed : Nat
  openedReportView : Bool
deriving DecidableEq

/-- `open_report_view` (`base_class.py` lines 250-282), reduced to its only
in-source decision: the lookup of the report name in
`SELECTORS_REPORT_CONSULT_OPTIONS`, which raises `ValueError` when the name
is not defined (the source quotes the name in the message); the navigation
clicks and waits live in the environment. -/
def open_report_view (report_name : String) : Except String Unit :=
  match SELECTORS_REPORT_CONSULT_OPTIONS report_name with
  | none => Except.error ("ValueError: El reporte " ++ report_name ++
      " no está definido en SELECTORS_REPORT_CONSULT_OPTIONS.")
  | some _ => Except.ok ()

/-- `validate_state_last_time`: an empty `states_to_check` returns `True`
before any navigation; otherwise `open_report_view("Registros Por Fecha")`
runs first — and since that name is absent from
`SELECTORS_REPORT_CONSULT_OPTIONS`, it raises `ValueError` before the
merchant filter and the state loop.  `vsltLoop` remains the translation of
the rest of the body (lines 423-530). -/
def validate_state_last_time (env : DrillEnv) : List String → VsltResult
  | [] => ⟨VOutcome.ret true, 0, false⟩
  | s :: rest =>
    match open_report_view "Registros Por Fecha" with
    | Except.error e => ⟨VOutcome.exn e, 0, false⟩
    | Except.ok _ =>
      let p := vsltLoop env (s :: rest)
      ⟨p.1, p.2, true⟩

/-! ## Row validators -/

/-- `int(row[col].replace(",", "").replace(".", "") or "0")` from
`validate_failures_vs_approvals`. -/
def parseCampoFA (s : String) : Except String Int :=
  pyIntE (orZero (removeChar '.' (removeChar ',' s)))

/-- `int(row[col].replace(",", "") or "0")` from
`validate_non_final_transactions` — note: only `','` is stripped here. -/
def parseCampoNF (s : String) : Except String Int :=
  pyIntE (orZero (removeChar ',' s))

def validate_failures_vs_approvals : List ReportRow → Except String (List String)
  | [] => Except.ok []
  | row :: rest =>
    if row.comercio ∈ IGNORE_COMERCIOS_VALIDATIONS "failures_vs_approvals" then
      validate_failures_vs_approvals rest
    else
      match parseCampoFA row.aprobadas, parseCampoFA row.fallidas, parseCampoFA row.rechazada with
      | Except.ok a, Except.ok f, Except.ok r =>
        match validate_failures_vs_approvals rest with
        | Except.ok tail =>
          Except.ok ((if f > a ∨ r > a then [row.comercio] else []) ++ tail)
        | Except.error e => Except.error e
      | Except.error e, _, _ => Except.error e
      | _, Except.error e, _ => Except.error e
      | _, _, Except.error e => Except.error e

/-- `validate_non_final_transactions`, parameterised by the drill-down
`validate_state_last_time` call (`drill`), whose exceptions propagate. -/
def validate_non_final_transactions
    (drill : String → List String → Except String Bool) :
    List ReportRow → Except String (List String)
  | [] => Except.ok []
  | row :: rest =>
    match parseCampoNF row.noFinales, parseCampoNF row.noFinalesEF,
          parseCampoNF row.noReportaadas with
    | Except.ok nf, Except.ok nfe, Except.ok nr =>
      let drillRes : Except String Bool :=
        if nf + nfe + nr > 0 then
          drill row.comercio
            ((if nf > 0 then ["# No Finales"] else []) ++
             (if nfe > 0 then ["# No Finales EF"] else []) ++
             (if nr > 0 then ["# No Reportaadas"] else []))
        else Except.ok false
      match drillRes with
      | Except.ok b =>
        match validate_non_final_transactions drill rest with
        | Except.ok tail => Except.ok ((if b then [row.comercio] else []) ++ tail)
        | Except.error e => Except.error e
      | Except.error e => Except.error e
    | Except.error e, _, _ => Except.error e
    | _, Except.error e, _ => Except.error e
    | _, _, Except.error e => Except.error e

/-! ## `telegram_bot.py`

The HTTP layer is abstracted by a `TgEnv`: per-chat success of the
`sendMessage` and `sendMediaGroup` requests, and whether opening the
attachment files succeeds.  Every exception in the source is caught inside
these methods, so the embeddings are total functions; the distinction the
caller can observe is only the returned list. -/

/-- A `results` list element: `enviar_mensaje` appends the response JSON of
each successful send (failures are logged and appended nowhere), while
`enviar_mensaje_con_archivos` appends `True`/`False` per chat. -/
inductive SendResult
  | jsonResp (chat : String)
  | flag (ok : Bool)
deriving DecidableEq

structure TgEnv where
  mediaOk : String → Bool
  textOk : String → Bool
  openFilesOk : Bool

def enviar_mensaje (env : TgEnv) (chat_ids : List String) (texto : String) : List SendResult :=
  chat_ids.filterMap (fun c => if env.textOk c then some (SendResult.jsonResp c) else none)

/-- `enviar_mensaje_con_archivos`: with no attachments it delegates to
`enviar_mensaje`; otherwise it opens the files (an exception there lands in
the outer `except`, returning `[]`) and appends one boolean per chat. -/
def enviar_mensaje_con_archivos (env : TgEnv) (chat_ids : List String)
    (texto : String) (archivos : List String) : List SendResult :=
  if archivos = [] then enviar_mensaje env chat_ids texto
  else if env.openFilesOk then chat_ids.map (fun c => SendResult.flag (env.mediaOk c))
  else []

/-- The note appended to the text-only fallback in `validate_portal_pdp`. -/
def notaCapturas : String :=
  "\n\n(No se pudieron enviar las capturas de pantalla adjuntas, validar logs.)"

structure NotifyEnd where
  fellBack : Bool
  finalMessage : String
  fallbackResults : List SendResult
deriving DecidableEq

/-- The notification step at the end of `validate_portal_pdp`: Python's
`if envio:` is list truthiness, i.e. the fallback runs only when the
returned list is empty. -/
def notifyResults (env : TgEnv) (chat_id : String) (message : String)
    (screenshots : List String) : NotifyEnd :=
  let envio := enviar_mensaje_con_archivos env [chat_id] message screenshots
  if envio ≠ [] then ⟨false, message, []⟩
  else
    let m2 := message ++ notaCapturas
    ⟨true, m2, enviar_mensaje env [chat_id] m2⟩

/-! ## Housekeeping -/

/-- Modelled from the spec: `delete_files_dir_time` is imported in
`base_class.py` from `functions.py`, but `functions.py` as present in the
repository does not define it.  Per the spec ("deletes screenshot artifacts
older than a fixed retention window, leaving newer ones untouched"), it keeps
exactly the files whose age does not exceed `maxAgeMinutes`.  A file is a
`(path, mtime-in-seconds)` pair and `now` is the current time in seconds. -/
def delete_files_dir_time (now : Int) (files : List (String × Int))
    (maxAgeMinutes : Int) : List (String × Int) :=
  files.filter (fun f => now - f.2 ≤ maxAgeMinutes * 60)

/-! ## The `run` monitoring loop

The loop is embedded as a fuel-indexed step function over an environment
saying which operations raise.  `execute_validation_reports` catches every
exception internally, so a cycle's validation outcome cannot alter control
flow (its result is recorded in the trace but never consulted); housekeeping
failures are caught where they occur; the loop exits only when `init_login`
or `page.reload()` raises, through the `except` branch (screenshot attempt,
error notification, `ERROR` result) and the `finally` branch (one
`close_browser` call, its own errors swallowed). -/

structure RunEnv where
  loginOk : Bool
  reloadOk : Nat → Bool
  minuteIsOne : Nat → Bool
  validationOk : Nat → Bool
  screenshotDirSet : Bool
  screenshotOk : Bool

inductive RunEv
  | login
  | reload (i : Nat)
  | validate (i : Nat) (ok : Bool)
  | housekeep (i : Nat)
  | shotAttempt
  | sendErrorMsg
  | closeBrowser
deriving DecidableEq

structure RunExit where
  status : String
  screenshot_path : Option String
deriving DecidableEq

/-- The `except` + `finally` exit path of `run`. -/
def errorExit (env : RunEnv) (evs : List RunEv) : Option RunExit × List RunEv :=
  (some { status := "ERROR",
          screenshot_path := if env.screenshotOk then some "error_screenshot" else none },
   evs ++ [RunEv.shotAttempt, RunEv.sendErrorMsg, RunEv.closeBrowser])

/-- Events of one successful cycle `i`: reload, validation (twice on the
minute-equals-1 tick), housekeeping when a screenshot directory is set. -/
def cycleEvents (env : RunEnv) (i : Nat) : List RunEv :=
  [RunEv.reload i] ++
  (if env.minuteIsOne i then
     [RunEv.validate i (env.validationOk i), RunEv.validate i (env.validationOk i)]
   else [RunEv.validate i (env.validationOk i)]) ++
  (if env.screenshotDirSet then [RunEv.housekeep i] else [])

def runLoop (env : RunEnv) : Nat → Nat → List RunEv → Option RunExit × List RunEv
  | 0, _, evs => (none, evs)
  | fuel + 1, i, evs =>
    if env.reloadOk i then runLoop env fuel (i + 1) (evs ++ cycleEvents env i)
    else errorExit env (evs ++ [RunEv.reload i])

/-- `run`: login, then the `while True` loop.  A `none` result means the
fuel ran out with the loop still running (no exit happened). -/
def runModel (env : RunEnv) (fuel : Nat) : Option RunExit × List RunEv :=
  if env.loginOk then runLoop env fuel 0 [RunEv.login]
  else errorExit env [RunEv.login]

/-! ## Concrete inputs used by counterexamples and witnesses -/

/-- A drill-down row whose elapsed-time cell (index 10) holds `s`. -/
def mkRowWithTime (s : String) : List String :=
  ["", "", "", "", "", "", "", "", "", "", s]

/-- A drill environment where every state query returns a single row. -/
def mkSingleStateEnv (nowSec : Int) (row : List String) : DrillEnv :=
  { pages := fun _ => ⟨"1 de 1 (1 registros)", [row], [row]⟩, nowSec := nowSec }

/-- Environment for the C1 counterexample: both states have records with
hours-old oldest transactions — yet neither is ever queried, because the
report-view lookup raises first. -/
def envC1 : DrillEnv :=
  { pages := fun st =>
      if st = "NO FINALES" then
        ⟨"1 de 1 (3 registros)", [mkRowWithTime "10:00:00 AM"], [mkRowWithTime "10:00:00 AM"]⟩
      else
        ⟨"1 de 1 (2 registros)", [mkRowWithTime "09:00:00 AM"], [mkRowWithTime "09:00:00 AM"]⟩,
    nowSec := 43200 }

/-- Environment for the C3 counterexample: last row with a blank
elapsed-time cell and a parseable 12-hour time in cell 3. -/
def rowC3 : List String :=
  ["X", "", "", "02:10:14 PM", "", "", "", "", "", "", ""]

def envC3 : DrillEnv :=
  { pages := fun _ => ⟨"1 de 1 (2 registros)", [rowC3], [rowC3]⟩, nowSec := 43200 }

/-- Row for the C9 counterexample: `'# No Finales'` grouped with `'.'`. -/
def rowC9 : ReportRow :=
  ⟨"SHOP9", "", "0", "0", "0", "0", "0", "1.234", "0", ""⟩

/-- A drill-down row with no usable value in any cell. -/
def rowBlank : List String :=
  ["", "", "", "", "", "", "", "", "", "", ""]

/-- Environment whose single state query returns one fully blank row. -/
def envBlank : DrillEnv :=
  { pages := fun _ => ⟨"1 de 1 (1 registros)", [rowBlank], [rowBlank]⟩, nowSec := 43200 }

/-- The per-row flagging condition of `validate_failures_vs_approvals`:
not in the ignore list, counts parse, and failures or rejections exceed
approvals. -/
def flaggedFA (row : ReportRow) : Prop :=
  row.comercio ∉ IGNORE_COMERCIOS_VALIDATIONS "failures_vs_approvals" ∧
  ∃ a f r : Int, parseCampoFA row.aprobadas = Except.ok a ∧
    parseCampoFA row.fallidas = Except.ok f ∧
    parseCampoFA row.rechazada = Except.ok r ∧ (f > a ∨ r > a)

/-- A digit string grouped (only) with `','` thousands separators —
including the empty string, which the source defaults to `0`. -/
def commaDigits (s : String) : Prop :=
  ∀ c ∈ s.data, c.isDigit = true ∨ c = ','

instance (s : String) : Decidable (commaDigits s) := by
  unfold commaDigits
  exact List.decidableBAll _ s.data

/-! ## Theorems -/

/-- Claim C7: the number of pages processed equals `ceil(totalRecords / 22)`
(characterised by `n ≤ 22·pages < n + 22`); record counts 0, 1, 22, 23, 44,
45 give page counts 0, 1, 1, 2, 2, 3; and a parsed record count of 0 yields
an empty row sequence and an empty screenshot list without an error. -/
theorem C7_pagination :
    (∀ env : ReportEnv,
        ((findRegistros env.paginatorText).getD 0 ≤
            22 * (exe_consult_and_ext_data env).2.length ∧
         22 * (exe_consult_and_ext_data env).2.length <
            (findRegistros env.paginatorText).getD 0 + 22) ∧
        ((findRegistros env.paginatorText).getD 0 = 0 →
            exe_consult_and_ext_data env = ([], []))) ∧
    ((exe_consult_and_ext_data (mkReportEnv "1 de 1 (0 registros)")).2.length = 0 ∧
     (exe_consult_and_ext_data (mkReportEnv "1 de 1 (1 registros)")).2.length = 1 ∧
     (exe_consult_and_ext_data (mkReportEnv "1 de 1 (22 registros)")).2.length = 1 ∧
     (exe_consult_and_ext_data (mkReportEnv "1 de 1 (23 registros)")).2.length = 2 ∧
     (exe_consult_and_ext_data (mkReportEnv "1 de 1 (44 registros)")).2.length = 2 ∧
     (exe_consult_and_ext_data (mkReportEnv "1 de 1 (45 registros)")).2.length = 3) := by
  constructor
  · intro env
    have hlen : (exe_consult_and_ext_data env).2.length =
        ((findRegistros env.paginatorText).getD 0 + MAX_VALUES_PER_PAGE - 1) /
          MAX_VALUES_PER_PAGE := by
      simp [exe_consult_and_ext_data]
    constructor
    · rw [hlen]
      unfold MAX_VALUES_PER_PAGE
      omega
    · intro h0
      simp [exe_consult_and_ext_data, h0, MAX_VALUES_PER_PAGE]
  · exact ⟨by decide, by decide, by decide, by decide, by decide, by decide⟩

theorem C7_witness :
    exe_consult_and_ext_data (mkReportEnv "(0 registros)") = ([], []) ∧
    (23 ≤ 22 * (exe_consult_and_ext_data (mkReportEnv "1 de 1 (23 registros)")).2.length ∧
     22 * (exe_consult_and_ext_data (mkReportEnv "1 de 1 (23 registros)")).2.length < 23 + 22) := by
  constructor
  · exact (C7_pagination.1 (mkReportEnv "(0 registros)")).2 (by decide)
  · have h := (C7_pagination.1 (mkReportEnv "1 de 1 (23 registros)")).1
    have he : (findRegistros (mkReportEnv "1 de 1 (23 registros)").paginatorText).getD 0 = 23 := by
      decide
    rw [he] at h
    exact h

/-- Claim C2: with one recipient and one attachment whose `sendMediaGroup`
request fails, `enviar_mensaje_con_archivos` returns `[False]` — a truthy,
non-empty list — so `validate_portal_pdp` does NOT fall back to the
text-only delivery with the appended note.  This evaluates the code at the
claim's failing input. -/
theorem C2_no_fallback :
    (notifyResults ⟨fun _ => false, fun _ => true, true⟩ "chat1" "msg" ["shot1.png"]).fellBack
        = false ∧
    enviar_mensaje_con_archivos ⟨fun _ => false, fun _ => true, true⟩ ["chat1"] "msg"
        ["shot1.png"] = [SendResult.flag false] := by
  exact ⟨rfl, rfl⟩

/-- Claim C3, counterexample: at a drill-down whose last row has a blank
elapsed-time cell (index 10) and `"02:10:14 PM"` in cell 3 — the input
where the claim says the scanned value is used as the time — the source
instead raises `ValueError` at `open_report_view("Registros Por Fecha")`
before reading any row: no scan, no flag, an error after all. -/
theorem C3_counterexample :
    validate_state_last_time envC3 ["# No Finales"] =
      ⟨VOutcome.exn
        "ValueError: El reporte Registros Por Fecha no está definido en SELECTORS_REPORT_CONSULT_OPTIONS.",
        0, false⟩ := by
  decide

/-- Claim C3 (amended): the blank-cell fallback never executes, since every
non-empty drill-down raises `ValueError` at the report-view lookup first.
In the state-loop body itself, the scan does find and parse `"02:10:14 PM"`
(cell 3) into a `datetime`, after which line 518 re-passes that `datetime`
to `strptime`, raising `TypeError` instead of using it as the time — while
a last row with no usable value anywhere makes the body return `True`
(flagging the merchant) without raising. -/
theorem C3_amended :
    fallbackScan rowC3 = PyVal.time ⟨14, 10, 14⟩ ∧
    checkStateStep envC3 "NO FINALES" =
      some (VOutcome.exn "TypeError: strptime() argument 1 must be str") ∧
    checkStateStep envBlank "NO FINALES" = some (VOutcome.ret true) := by
  exact ⟨by decide, by decide, by decide⟩

/-- Claim C1, counterexample: with two requested states the source checks
neither — `open_report_view("Registros Por Fecha")` raises `ValueError`
(the name is absent from `SELECTORS_REPORT_CONSULT_OPTIONS`) before the
state loop runs, so 0 of the 2 requested states are processed. -/
theorem C1_counterexample :
    validate_state_last_time envC1 ["# No Finales", "# No Finales EF"] =
      ⟨VOutcome.exn
        "ValueError: El reporte Registros Por Fecha no está definido en SELECTORS_REPORT_CONSULT_OPTIONS.",
        0, false⟩ ∧
    (["# No Finales", "# No Finales EF"] : List String).length = 2 := by
  exact ⟨by decide, rfl⟩

/-- Claim C8, counterexample: at noon with a last-row time 90 elapsed
minutes earlier (`"10:30:00 AM"`), where the claim says the merchant is
flagged, the source raises `ValueError` at the report-view lookup instead —
no drill-down state is ever evaluated.  And even the loop body itself would
not flag across midnight: at `now` = 00:30:00 (1800 s) the time of day 90
minutes before `now` is 23:00:00 (82800 s = (1800 − 5400) mod 86400), whose
same-day placement lies in the future, giving negative elapsed time. -/
theorem C8_counterexample :
    validate_state_last_time (mkSingleStateEnv 43200 (mkRowWithTime "10:30:00 AM"))
        ["# No Finales"] =
      ⟨VOutcome.exn
        "ValueError: El reporte Registros Por Fecha no está definido en SELECTORS_REPORT_CONSULT_OPTIONS.",
        0, false⟩ ∧
    ((1800 : Int) - 5400) % 86400 = 82800 ∧
    strptimeIMSp "11:00:00 PM" = some ⟨23, 0, 0⟩ ∧
    checkStateStep (mkSingleStateEnv 1800 (mkRowWithTime "11:00:00 PM")) "NO FINALES" =
      none := by
  exact ⟨by decide, by decide, by decide, by decide⟩

/-- Claim C9, counterexample: a `'# No Finales'` value grouped with `'.'`
(`"1.234"`) is not normalised by `validate_non_final_transactions` (which
strips only `','`), so `int()` raises `ValueError` — the summation is never
reached. -/
theorem C9_counterexample :
    validate_non_final_transactions (fun _ _ => Except.ok false) [rowC9] =
      Except.error "ValueError: invalid literal for int: 1.234" := rfl

/-- Claim C10: `validate_state_last_time` with an empty `states_to_check`
returns `True` immediately — zero states processed, report view never
opened — and `validate_non_final_transactions` appends the merchant
whenever the drill-down returns `True`, so such a call would flag the
merchant without any drill-down evidence. -/
theorem C10_empty_states_flags :
    (∀ env : DrillEnv, validate_state_last_time env [] = ⟨VOutcome.ret true, 0, false⟩) ∧
    (∀ (drill : String → List String → Except String Bool) (row : ReportRow) (nf nfe nr : Int),
        parseCampoNF row.noFinales = Except.ok nf →
        parseCampoNF row.noFinalesEF = Except.ok nfe →
        parseCampoNF row.noReportaadas = Except.ok nr →
        nf + nfe + nr > 0 →
        drill row.comercio
            ((if nf > 0 then ["# No Finales"] else []) ++
             (if nfe > 0 then ["# No Finales EF"] else []) ++
             (if nr > 0 then ["# No Reportaadas"] else [])) = Except.ok true →
        validate_non_final_transactions drill [row] = Except.ok [row.comercio]) := by
  constructor
  · intro env; rfl
  · intro drill row nf nfe nr h1 h2 h3 hsum hdrill
    unfold validate_non_final_transactions
    rw [h1, h2, h3]
    simp only [if_pos hsum, hdrill]
    simp [validate_non_final_transactions]

theorem C10_witness :
    validate_state_last_time ⟨fun _ => ⟨"", [], []⟩, 0⟩ [] = ⟨VOutcome.ret true, 0, false⟩ ∧
    validate_non_final_transactions (fun _ _ => Except.ok true)
      [⟨"SHOPX", "", "0", "0", "0", "0", "0", "2", "0", ""⟩] = Except.ok ["SHOPX"] := by
  refine ⟨C10_empty_states_flags.1 ⟨fun _ => ⟨"", [], []⟩, 0⟩, ?_⟩
  exact C10_empty_states_flags.2 (fun _ _ => Except.ok true)
    ⟨"SHOPX", "", "0", "0", "0", "0", "0", "2", "0", ""⟩ 2 0 0 rfl rfl rfl (by decide) rfl

/-- No event of a successful cycle is the browser-close event. -/
theorem cycleEvents_ne_close (env : RunEnv) (i : Nat) :
    ∀ e ∈ cycleEvents env i, e ≠ RunEv.closeBrowser := by
  intro e he h
  subst h
  unfold cycleEvents at he
  split at he <;> split at he <;> simp at he

/-- Every exit of the `while True` loop goes through the `except`/`finally`
path: status `ERROR`, a screenshot attempt and an error notification, then
one close event at the very end, with no close event earlier. -/
theorem runLoop_exit (env : RunEnv) :
    ∀ (fuel i : Nat) (evs : List RunEv) (r : RunExit) (evs' : List RunEv),
      runLoop env fuel i evs = (some r, evs') →
      r.status = "ERROR" ∧
      ∃ mid : List RunEv,
        evs' = evs ++ mid ++ [RunEv.shotAttempt, RunEv.sendErrorMsg, RunEv.closeBrowser] ∧
        ∀ e ∈ mid, e ≠ RunEv.closeBrowser := by
  intro fuel
  induction fuel with
  | zero => intro i evs r evs' h; simp [runLoop] at h
  | succ n ih =>
    intro i evs r evs' h
    rw [runLoop] at h
    split at h
    · obtain ⟨hst, mid, hevs, hmid⟩ := ih (i + 1) (evs ++ cycleEvents env i) r evs' h
      refine ⟨hst, cycleEvents env i ++ mid, ?_, ?_⟩
      · rw [hevs]; simp [List.append_assoc]
      · intro e he
        rcases List.mem_append.mp he with h1 | h1
        · exact cycleEvents_ne_close env i e h1
        · exact hmid e h1
    · unfold errorExit at h
      simp only [Prod.mk.injEq, Option.some.injEq] at h
      obtain ⟨hr, hevs⟩ := h
      subst hr
      refine ⟨rfl, [RunEv.reload i], ?_, ?_⟩
      · rw [← hevs]
      · intro e he hc
        simp at he
        subst he
        exact RunEv.noConfusion hc

/-- Claim C4: on every exit of `run` — login failure or a later in-loop
error, with or without a successful error screenshot — the result status is
`ERROR`, the browser is closed exactly once, a screenshot attempt occurred,
and the close is the final action. -/
theorem C4_run_teardown (env : RunEnv) (fuel : Nat) (r : RunExit) (evs : List RunEv)
    (h : runModel env fuel = (some r, evs)) :
    r.status = "ERROR" ∧ evs.count RunEv.closeBrowser = 1 ∧
    RunEv.shotAttempt ∈ evs ∧ evs.getLast? = some RunEv.closeBrowser := by
  unfold runModel at h
  split at h
  · obtain ⟨hst, mid, hevs, hmid⟩ := runLoop_exit env fuel 0 [RunEv.login] r evs h
    subst hevs
    have hmid0 : mid.count RunEv.closeBrowser = 0 :=
      List.count_eq_zero.mpr (fun hc => (hmid _ hc) rfl)
    refine ⟨hst, ?_, ?_, ?_⟩
    · simp [List.count_append, hmid0]
    · simp
    · rw [show [RunEv.shotAttempt, RunEv.sendErrorMsg, RunEv.closeBrowser] =
          [RunEv.shotAttempt, RunEv.sendErrorMsg] ++ [RunEv.closeBrowser] from rfl]
      rw [← List.append_assoc]
      exact List.getLast?_concat _
  · unfold errorExit at h
    simp only [Prod.mk.injEq, Option.some.injEq] at h
    obtain ⟨hr, hevs⟩ := h
    subst hr
    subst hevs
    exact ⟨rfl, by decide, by decide, by decide⟩

theorem C4_witness :
    (RunExit.mk "ERROR" none).status = "ERROR" ∧
    [RunEv.login, RunEv.shotAttempt, RunEv.sendErrorMsg,
        RunEv.closeBrowser].count RunEv.closeBrowser = 1 ∧
    RunEv.shotAttempt ∈ [RunEv.login, RunEv.shotAttempt, RunEv.sendErrorMsg,
        RunEv.closeBrowser] ∧
    [RunEv.login, RunEv.shotAttempt, RunEv.sendErrorMsg,
        RunEv.closeBrowser].getLast? = some RunEv.closeBrowser :=
  C4_run_teardown
    ⟨false, fun _ => true, fun _ => false, fun _ => true, true, false⟩ 1
    ⟨"ERROR", none⟩
    [RunEv.login, RunEv.shotAttempt, RunEv.sendErrorMsg, RunEv.closeBrowser] rfl

/-- `runLoop` only ever appends events to its accumulator. -/
theorem runLoop_prefix (env : RunEnv) :
    ∀ (fuel i : Nat) (evs : List RunEv), ∃ rest, (runLoop env fuel i evs).2 = evs ++ rest := by
  intro fuel
  induction fuel with
  | zero => intro i evs; exact ⟨[], by simp [runLoop]⟩
  | succ n ih =>
    intro i evs
    rw [runLoop]
    split
    · obtain ⟨rest, hr⟩ := ih (i + 1) (evs ++ cycleEvents env i)
      exact ⟨cycleEvents env i ++ rest, by rw [hr]; simp⟩
    · exact ⟨[RunEv.reload i] ++ [RunEv.shotAttempt, RunEv.sendErrorMsg, RunEv.closeBrowser],
        by simp [errorExit]⟩

/-- When the reloads up to cycle `i` succeed and a screenshot directory is
set, cycle `i` performs its housekeeping pass — for every environment, in
particular regardless of each cycle's validation outcome. -/
theorem runLoop_housekeep (env : RunEnv) (hdir : env.screenshotDirSet = true) :
    ∀ (fuel k i : Nat) (evs : List RunEv), k ≤ i → i - k < fuel →
      (∀ j, k ≤ j → j ≤ i → env.reloadOk j = true) →
      RunEv.housekeep i ∈ (runLoop env fuel k evs).2 := by
  intro fuel
  induction fuel with
  | zero => intro k i evs hki hlt _; omega
  | succ n ih =>
    intro k i evs hki hlt hre
    rw [runLoop, if_pos (hre k le_rfl hki)]
    by_cases hk : k = i
    · subst hk
      have hcyc : RunEv.housekeep k ∈ cycleEvents env k := by
        unfold cycleEvents
        simp [hdir]
      obtain ⟨rest, hr⟩ := runLoop_prefix env n (k + 1) (evs ++ cycleEvents env k)
      rw [hr]
      exact List.mem_append_left _ (List.mem_append_right _ hcyc)
    · exact ih (k + 1) i (evs ++ cycleEvents env k) (by omega) (by omega)
        (fun j h1 h2 => hre j (by omega) h2)

/-- Claim C5: housekeeping (`delete_files_dir_time` with
`max_age_minutes = 60 * 24`) keeps exactly the files whose age is within the
24-hour window and deletes exactly those strictly older; and the run loop
performs the housekeeping pass on every completed cycle for every
environment — `env.validationOk` is universally quantified, so the pass is
independent of whether that cycle's validation succeeded or failed. -/
theorem C5_housekeeping :
    (∀ (now : Int) (files : List (String × Int)) (f : String × Int), f ∈ files →
        (f ∈ delete_files_dir_time now files (60 * 24) ↔ now - f.2 ≤ 60 * 24 * 60)) ∧
    (∀ (now : Int) (files : List (String × Int)) (f : String × Int), f ∈ files →
        (f ∉ delete_files_dir_time now files (60 * 24) ↔ now - f.2 > 60 * 24 * 60)) ∧
    (∀ (env : RunEnv) (fuel i : Nat), env.loginOk = true → env.screenshotDirSet = true →
        (∀ j, j ≤ i → env.reloadOk j = true) → i < fuel →
        RunEv.housekeep i ∈ (runModel env fuel).2) := by
  refine ⟨?_, ?_, ?_⟩
  · intro now files f hf
    simp [delete_files_dir_time, List.mem_filter, hf]
  · intro now files f hf
    simp [delete_files_dir_time, List.mem_filter, hf]
    omega
  · intro env fuel i hlogin hdir hre hlt
    unfold runModel
    rw [if_pos hlogin]
    exact runLoop_housekeep env hdir fuel 0 i [RunEv.login] (Nat.zero_le i) (by omega)
      (fun j _ h2 => hre j h2)

theorem C5_witness :
    ("new", (99000 : Int)) ∈ delete_files_dir_time 100000 [("old", 0), ("new", 99000)] (60 * 24) ∧
    ("old", (0 : Int)) ∉ delete_files_dir_time 100000 [("old", 0), ("new", 99000)] (60 * 24) ∧
    RunEv.housekeep 0 ∈
      (runModel ⟨true, fun _ => true, fun _ => false, fun _ => false, true, true⟩ 2).2 := by
  refine ⟨?_, ?_, ?_⟩
  · exact (C5_housekeeping.1 100000 [("old", 0), ("new", 99000)] ("new", 99000)
      (by decide)).mpr (by decide)
  · exact (C5_housekeeping.2.1 100000 [("old", 0), ("new", 99000)] ("old", 0)
      (by decide)).mpr (by decide)
  · exact C5_housekeeping.2.2 ⟨true, fun _ => true, fun _ => false, fun _ => false, true, true⟩
      2 0 rfl rfl (fun j _ => rfl) (by decide)

/-- Membership characterisation of `validate_failures_vs_approvals`: a
merchant appears among the flagged names exactly when some row of the table
carries its name and satisfies the per-row flagging condition. -/
theorem vfa_mem : ∀ (dt : List ReportRow) (res : List String),
    validate_failures_vs_approvals dt = Except.ok res →
    ∀ c : String, (c ∈ res ↔ ∃ row ∈ dt, row.comercio = c ∧ flaggedFA row) := by
  intro dt
  induction dt with
  | nil =>
    intro res h c
    simp [validate_failures_vs_approvals] at h
    subst h
    simp
  | cons row rest ih =>
    intro res h c
    by_cases hig : row.comercio ∈ IGNORE_COMERCIOS_VALIDATIONS "failures_vs_approvals"
    · rw [validate_failures_vs_approvals, if_pos hig] at h
      rw [ih res h c]
      constructor
      · rintro ⟨r', hr', hc, hf⟩
        exact ⟨r', List.mem_cons_of_mem _ hr', hc, hf⟩
      · rintro ⟨r', hr', hc, hf⟩
        rcases List.mem_cons.mp hr' with he | hm
        · subst he
          exact absurd hig hf.1
        · exact ⟨r', hm, hc, hf⟩
    · rw [validate_failures_vs_approvals, if_neg hig] at h
      cases ha : parseCampoFA row.aprobadas with
      | error e => rw [ha] at h; simp at h
      | ok a =>
        cases hf : parseCampoFA row.fallidas with
        | error e => rw [ha, hf] at h; simp at h
        | ok f =>
          cases hr : parseCampoFA row.rechazada with
          | error e => rw [ha, hf, hr] at h; simp at h
          | ok r =>
            rw [ha, hf, hr] at h
            cases ht : validate_failures_vs_approvals rest with
            | error e => rw [ht] at h; simp at h
            | ok tail =>
              rw [ht] at h
              simp only [Except.ok.injEq] at h
              subst h
              have iht := ih tail ht c
              by_cases hcond : (f > a ∨ r > a)
              · rw [if_pos hcond]
                simp only [List.cons_append, List.nil_append, List.mem_cons]
                constructor
                · rintro (hc | hc)
                  · exact ⟨row, Or.inl rfl, hc.symm,
                      hig, a, f, r, ha, hf, hr, hcond⟩
                  · obtain ⟨r', hr', hcc, hff⟩ := iht.mp hc
                    exact ⟨r', Or.inr hr', hcc, hff⟩
                · rintro ⟨r', hr', hcc, hff⟩
                  rcases hr' with he | hm
                  · subst he
                    exact Or.inl hcc.symm
                  · exact Or.inr (iht.mpr ⟨r', hm, hcc, hff⟩)
              · rw [if_neg hcond]
                simp only [List.nil_append]
                rw [iht]
                constructor
                · rintro ⟨r', hr', hcc, hff⟩
                  exact ⟨r', List.mem_cons_of_mem _ hr', hcc, hff⟩
                · rintro ⟨r', hr', hcc, hff⟩
                  rcases List.mem_cons.mp hr' with he | hm
                  · subst he
                    obtain ⟨hig', a', f', r', ha', hf', hr', hcond'⟩ := hff
                    rw [ha] at ha'
                    rw [hf] at hf'
                    rw [hr] at hr'
                    cases ha'
                    cases hf'
                    cases hr'
                    exact absurd hcond' hcond
                  · exact ⟨r', hm, hcc, hff⟩

/-- Claim C6: `validate_failures_vs_approvals` flags a merchant exactly when
its row's name is outside the `failures_vs_approvals` ignore list and, after
normalisation (strip `','`/`'.'`, default `""` to 0), failures or rejections
exceed approvals; and an ignored merchant is never flagged, whatever its
count values (they are not even parsed). -/
theorem C6_failures_vs_approvals (dt : List ReportRow) (res : List String)
    (h : validate_failures_vs_approvals dt = Except.ok res) :
    (∀ c : String, c ∈ res ↔ ∃ row ∈ dt, row.comercio = c ∧ flaggedFA row) ∧
    (∀ c : String, c ∈ IGNORE_COMERCIOS_VALIDATIONS "failures_vs_approvals" → c ∉ res) := by
  refine ⟨vfa_mem dt res h, ?_⟩
  intro c hcig hcres
  obtain ⟨row, _, hc, hf⟩ := (vfa_mem dt res h c).mp hcres
  exact hf.1 (by rwa [hc])

theorem C6_witness :
    ("CAFAM" ∉ (["SHOP"] : List String)) ∧
    ("SHOP" ∈ (["SHOP"] : List String) ↔
      ∃ row ∈ [(⟨"CAFAM", "", "x", "y", "z", "", "", "", "", ""⟩ : ReportRow),
               ⟨"SHOP", "", "5", "0", "10", "", "", "", "", ""⟩],
        row.comercio = "SHOP" ∧ flaggedFA row) := by
  have h : validate_failures_vs_approvals
      [⟨"CAFAM", "", "x", "y", "z", "", "", "", "", ""⟩,
       ⟨"SHOP", "", "5", "0", "10", "", "", "", "", ""⟩] = Except.ok ["SHOP"] := rfl
  exact ⟨(C6_failures_vs_approvals _ _ h).2 "CAFAM" (by decide),
         (C6_failures_vs_approvals _ _ h).1 "SHOP"⟩

theorem dropWhile_all_false {p : Char → Bool} :
    ∀ l : List Char, (∀ c ∈ l, p c = false) → l.dropWhile p = l := by
  intro l h
  cases l with
  | nil => rfl
  | cons a as =>
    simp [List.dropWhile, h a (List.mem_cons_self a as)]

theorem isDigit_not_space (c : Char) (h : c.isDigit = true) : pySpaceChar c = false := by
  cases hps : pySpaceChar c
  · rfl
  · unfold pySpaceChar at hps
    simp only [Bool.or_eq_true, decide_eq_true_eq] at hps
    rcases hps with ((((h1 | h1) | h1) | h1) | h1) | h1 <;> subst h1 <;> exact absurd h (by decide)

theorem trimCharList_digits (ds : List Char) (h : ∀ c ∈ ds, c.isDigit = true) :
    trimCharList ds = ds := by
  have hnp : ∀ c ∈ ds, pySpaceChar c = false := fun c hc => isDigit_not_space c (h c hc)
  unfold trimCharList
  rw [dropWhile_all_false ds hnp]
  rw [dropWhile_all_false ds.reverse (fun c hc => hnp c (List.mem_reverse.mp hc))]
  exact List.reverse_reverse ds

/-- A `','`-grouped digit string survives the `'# No Finales'`-style
normalisation: stripping `','` and applying `int()` yields exactly the value
of the remaining digit run (the empty string defaults to 0). -/
theorem parseCampoNF_commaDigits (s : String) (h : commaDigits s) :
    parseCampoNF s = Except.ok ((digitsToNat (s.data.filter (fun c => c != ','))) : Int) := by
  obtain ⟨ds, hds⟩ : ∃ ds, List.filter (fun c => c != ',') s.data = ds := ⟨_, rfl⟩
  have hdig : ∀ c ∈ ds, c.isDigit = true := by
    intro c hc
    rw [← hds, List.mem_filter] at hc
    rcases h c hc.1 with hd | hcomma
    · exact hd
    · subst hcomma
      simp at hc
  have hrm : removeChar ',' s = ⟨ds⟩ := by
    rw [removeChar, hds]
  rw [show s.data.filter (fun c => c != ',') = ds from hds]
  by_cases hempty : ds = []
  · subst hempty
    rw [parseCampoNF, hrm]
    rfl
  · rw [parseCampoNF, hrm]
    have hne : (⟨ds⟩ : String) ≠ "" := by
      intro hcon
      exact hempty (congrArg String.data hcon)
    rw [orZero, if_neg hne]
    unfold pyIntE pyInt
    rw [show (String.mk ds).data = ds from rfl]
    rw [trimCharList_digits ds hdig]
    have hh : ds.headD ' ' ≠ '+' ∧ ds.headD ' ' ≠ '-' := by
      cases ds with
      | nil => exact absurd rfl hempty
      | cons a as =>
        have hda := hdig a (List.mem_cons_self a as)
        constructor <;> intro hc <;> simp only [List.headD_cons] at hc <;> rw [hc] at hda <;>
          exact absurd hda (by decide)
    rw [if_neg hh.1, if_neg hh.2]
    have hie : ds.isEmpty = false := by
      cases ds
      · exact absurd rfl hempty
      · rfl
    have hall : ds.all Char.isDigit = true := List.all_eq_true.mpr (fun c hc => hdig c hc)
    simp [pyIntCore, hie, hall]

/-- Claim C9 (amended): `validate_non_final_transactions` normalises only
`','` separators, so every `','`-grouped digit string converts to its
integer value and — with a drill-down that returns — the validation raises
no exception on such tables.  (`'.'`-grouped strings raise, see the
counterexample.) -/
theorem C9_amended :
    (∀ s : String, commaDigits s →
        parseCampoNF s = Except.ok ((digitsToNat (s.data.filter (fun c => c != ','))) : Int)) ∧
    (∀ (drill : String → List String → Except String Bool) (dt : List ReportRow),
        (∀ row ∈ dt, commaDigits row.noFinales ∧ commaDigits row.noFinalesEF ∧
            commaDigits row.noReportaadas) →
        (∀ c sts, ∃ b, drill c sts = Except.ok b) →
        ∃ l, validate_non_final_transactions drill dt = Except.ok l) := by
  refine ⟨parseCampoNF_commaDigits, ?_⟩
  intro drill dt
  induction dt with
  | nil => intro _ _; exact ⟨[], rfl⟩
  | cons row rest ih =>
    intro hrows hdrill
    obtain ⟨h1, h2, h3⟩ := hrows row (List.mem_cons_self row rest)
    obtain ⟨l, hl⟩ := ih (fun r hr => hrows r (List.mem_cons_of_mem _ hr)) hdrill
    rw [validate_non_final_transactions]
    rw [parseCampoNF_commaDigits _ h1, parseCampoNF_commaDigits _ h2,
        parseCampoNF_commaDigits _ h3]
    dsimp only
    by_cases hsum : ((digitsToNat (row.noFinales.data.filter (fun c => c != ',')) : Int) +
        (digitsToNat (row.noFinalesEF.data.filter (fun c => c != ',')) : Int) +
        (digitsToNat (row.noReportaadas.data.filter (fun c => c != ',')) : Int) > 0)
    · rw [if_pos hsum]
      obtain ⟨b, hb⟩ := hdrill row.comercio
        ((if (digitsToNat (row.noFinales.data.filter (fun c => c != ',')) : Int) > 0 then
            ["# No Finales"] else []) ++
         (if (digitsToNat (row.noFinalesEF.data.filter (fun c => c != ',')) : Int) > 0 then
            ["# No Finales EF"] else []) ++
         (if (digitsToNat (row.noReportaadas.data.filter (fun c => c != ',')) : Int) > 0 then
            ["# No Reportaadas"] else []))
      rw [hb, hl]
      exact ⟨(if b then [row.comercio] else []) ++ l, rfl⟩
    · rw [if_neg hsum]
      rw [hl]
      exact ⟨l, by simp⟩

theorem C9_witness :
    parseCampoNF "1,234" = Except.ok 1234 ∧
    (∃ l, validate_non_final_transactions (fun _ _ => Except.ok false)
        [⟨"SHOPW", "", "0", "0", "0", "0", "1,234", "12", "0", ""⟩] = Except.ok l) := by
  constructor
  · rw [C9_amended.1 "1,234" (by decide)]
    rfl
  · exact C9_amended.2 (fun _ _ => Except.ok false)
      [⟨"SHOPW", "", "0", "0", "0", "0", "1,234", "12", "0", ""⟩]
      (by decide) (fun c sts => ⟨false, rfl⟩)

/-- Symbolic evaluation of one drill-down state over a single-row query
whose elapsed-time cell parses to `t`: the iteration flags exactly when the
elapsed seconds from `t` (placed on today's date) to now exceed 3600. -/
theorem checkStateStep_mkSingle (s : String) (t : PTime) (nowSec : Int)
    (hp : strptimeIMSp (removeChar '.' (trimStr s)) = some t) :
    checkStateStep (mkSingleStateEnv nowSec (mkRowWithTime s)) "NO FINALES" =
      (if nowSec - timeSecOfDay t > 3600 then some (VOutcome.ret true) else none) := by
  have hne : removeChar '.' (trimStr s) ≠ "" := by
    intro h0
    rw [h0] at hp
    rw [show strptimeIMSp "" = none from rfl] at hp
    exact Option.noConfusion hp
  have e1 : (findRegistros "1 de 1 (1 registros)").getD 0 = 1 := rfl
  unfold checkStateStep mkSingleStateEnv
  dsimp only
  rw [e1]
  rw [if_neg (by decide : ¬(1 : Nat) = 0)]
  rw [if_neg (by decide : ¬(1 : Nat) > 7)]
  rw [show ([mkRowWithTime s] : List (List String)).length = 1 from rfl]
  rw [if_neg (by decide : ¬(1 : Nat) = 0)]
  rw [show ([mkRowWithTime s] : List (List String)).getD (1 - 1) [] = mkRowWithTime s from rfl]
  rw [show getCell (mkRowWithTime s) 10 = s from rfl]
  rw [if_neg hne]
  dsimp only
  rw [if_neg hne, hp]

/-- Claim C1 (amended): the aging validation checks no requested state at
all — for every environment and every non-empty `states_to_check` it raises
`ValueError` at the `"Registros Por Fecha"` lookup (the name is absent from
`SELECTORS_REPORT_CONSULT_OPTIONS`), with zero states processed and no
report view opened. -/
theorem C1_amended (env : DrillEnv) (s : String) (rest : List String) :
    validate_state_last_time env (s :: rest) =
      ⟨VOutcome.exn
        "ValueError: El reporte Registros Por Fecha no está definido en SELECTORS_REPORT_CONSULT_OPTIONS.",
        0, false⟩ := rfl

/-- Claim C8 (amended): `validate_state_last_time` never flags a merchant
from a parsed time — every non-empty request raises `ValueError` at the
report-view lookup first.  In the per-state loop body, a parseable last-row
time flags exactly when the elapsed seconds from that time of day (placed
on today's date) to now exceed 3600; 90 elapsed minutes flag and 30 do not
(and across midnight the same-day placement makes the difference negative,
so there is no flag). -/
theorem C8_amended (s : String) (t : PTime) (nowSec : Int)
    (hp : strptimeIMSp (removeChar '.' (trimStr s)) = some t) :
    (∀ (env : DrillEnv) (st : String) (rest : List String),
        (validate_state_last_time env (st :: rest)).outcome =
          VOutcome.exn
            "ValueError: El reporte Registros Por Fecha no está definido en SELECTORS_REPORT_CONSULT_OPTIONS.") ∧
    (checkStateStep (mkSingleStateEnv nowSec (mkRowWithTime s)) "NO FINALES" =
        some (VOutcome.ret true) ↔ nowSec - timeSecOfDay t > 3600) ∧
    (nowSec - timeSecOfDay t = 90 * 60 →
      checkStateStep (mkSingleStateEnv nowSec (mkRowWithTime s)) "NO FINALES" =
        some (VOutcome.ret true)) ∧
    (nowSec - timeSecOfDay t = 30 * 60 →
      checkStateStep (mkSingleStateEnv nowSec (mkRowWithTime s)) "NO FINALES" = none) := by
  have hcs := checkStateStep_mkSingle s t nowSec hp
  refine ⟨fun env st rest => rfl, ?_, ?_, ?_⟩
  · rw [hcs]
    by_cases hgt : nowSec - timeSecOfDay t > 3600
    · simp [hgt]
    · simp [hgt]
  · intro h90
    rw [hcs, if_pos (by omega)]
  · intro h30
    rw [hcs, if_neg (by omega)]

theorem C8_witness :
    checkStateStep (mkSingleStateEnv 43200 (mkRowWithTime "10:30:00 AM")) "NO FINALES" =
      some (VOutcome.ret true) :=
  (C8_amended "10:30:00 AM" ⟨10, 30, 0⟩ 43200 (by decide)).2.2.1 (by decide)
